import Mathlib

/-!
Verification of the Grover-search scripts and helpers in the
`generative-design-quantum` repository.

All circuits in `part_3/grovers_search` are built from three gate shapes:
multi-controlled `X`, multi-controlled `H` (cirq `H(...).controlled_by(...)`)
and multi-controlled `Z` (cirq `CZ`).  Every gate matrix entry lies in
`ℚ(√2)`, so the circuits are simulated exactly: amplitudes are kept in
`ℤ[√2]` together with a global power of `√2` in the denominator.
-/

namespace GDQ

set_option maxRecDepth 100000

/-- An element `a + b·√2` of the ring `ℤ[√2]`. -/
structure ZRt2 where
  a : Int
  b : Int
deriving DecidableEq, Repr

def ZRt2.zero : ZRt2 := ⟨0, 0⟩

def ZRt2.one : ZRt2 := ⟨1, 0⟩

def ZRt2.add (x y : ZRt2) : ZRt2 := ⟨x.a + y.a, x.b + y.b⟩

def ZRt2.neg (x : ZRt2) : ZRt2 := ⟨-x.a, -x.b⟩

/-- Multiplication by `√2`: `(a + b√2)·√2 = 2b + a√2`. -/
def ZRt2.mulSqrt2 (x : ZRt2) : ZRt2 := ⟨2 * x.b, x.a⟩

/-- The square `(a + b√2)² = (a² + 2b²) + 2ab·√2`. -/
def ZRt2.sq (x : ZRt2) : ZRt2 := ⟨x.a * x.a + 2 * x.b * x.b, 2 * x.a * x.b⟩

/-- Interpretation of `ZRt2` in the real numbers. -/
noncomputable def ZRt2.toReal (x : ZRt2) : ℝ := (x.a : ℝ) + (x.b : ℝ) * Real.sqrt 2

/-- The three gate shapes used by the repository's circuits, each with a
control list and a target qubit (cirq's `G(target).controlled_by(controls)`).
`h [] t` is a plain Hadamard, `x [] t` a plain NOT, `z [c] t` is `cirq.CZ`. -/
inductive Gate where
  | x (controls : List Nat) (target : Nat)
  | h (controls : List Nat) (target : Nat)
  | z (controls : List Nat) (target : Nat)
deriving DecidableEq, Repr

def Gate.controlsOf : Gate → List Nat
  | .x c _ => c
  | .h c _ => c
  | .z c _ => c

def Gate.targetOf : Gate → Nat
  | .x _ t => t
  | .h _ t => t
  | .z _ t => t

/-- A basis state of the qubit register is a `Nat` whose bit `j` is the value
of `cirq.LineQubit(j)`.  All the controls of a gate fire iff they are all 1. -/
def ctrlsFire (c : List Nat) (i : Nat) : Bool := c.all fun j => i.testBit j

/-- A state vector with exact amplitudes: `entries` associates to each basis
index an amplitude in `ℤ[√2]`, and the whole vector is divided by `√2 ^ shift`.
Indices are kept unique by construction (`insertAmp`). -/
structure QState where
  entries : List (Nat × ZRt2)
  shift : Nat
deriving DecidableEq, Repr

/-- Add amplitude `v` onto index `i`, merging with an existing entry. -/
def insertAmp : List (Nat × ZRt2) → Nat → ZRt2 → List (Nat × ZRt2)
  | [], i, v => [(i, v)]
  | p :: rest, i, v =>
      if p.1 = i then (p.1, p.2.add v) :: rest else p :: insertAmp rest i v

/-- Apply one gate to the state.

* `x c t`: basis permutation — flip bit `t` of every index whose controls fire.
* `z c t`: diagonal — negate the amplitude of every index whose controls fire
  and whose bit `t` is 1 (this is cirq's symmetric `CZ`).
* `h c t`: on components whose controls fire, split along bit `t` with the
  Hadamard signs; on the others multiply by `√2`; the global denominator
  gains one factor of `√2`. -/
def applyGate (st : QState) : Gate → QState
  | .x c t =>
      ⟨st.entries.map fun p =>
        (if ctrlsFire c p.1 then p.1 ^^^ 2 ^ t else p.1, p.2), st.shift⟩
  | .z c t =>
      ⟨st.entries.map fun p =>
        (p.1, if ctrlsFire c p.1 && p.1.testBit t then p.2.neg else p.2), st.shift⟩
  | .h c t =>
      ⟨st.entries.foldl
        (fun acc p =>
          if ctrlsFire c p.1 then
            let i0 := if p.1.testBit t then p.1 ^^^ 2 ^ t else p.1
            insertAmp (insertAmp acc i0 p.2) (i0 ^^^ 2 ^ t)
              (if p.1.testBit t then p.2.neg else p.2)
          else insertAmp acc p.1 p.2.mulSqrt2)
        [], st.shift + 1⟩

def applyGates (gs : List Gate) (st : QState) : QState := gs.foldl applyGate st

/-- The computational-basis state `|i⟩` (all qubits not mentioned are `|0⟩`). -/
def basisState (i : Nat) : QState := ⟨[(i, ZRt2.one)], 0⟩

/-- Unnormalised probability mass of the indices satisfying `valid`:
the sum of the squared amplitudes, an element of `ℤ[√2]` still to be divided
by `2 ^ shift`. -/
def probNum (st : QState) (valid : Nat → Bool) : ZRt2 :=
  st.entries.foldl (fun acc p => if valid p.1 then acc.add p.2.sq else acc) ZRt2.zero

/-- The real probability that measuring the state yields an index in `valid`. -/
noncomputable def realProb (st : QState) (valid : Nat → Bool) : ℝ :=
  (probNum st valid).toReal / 2 ^ st.shift

/-! ### The circuits of `part_3/grovers_search`

Qubit numbering follows `cirq.LineQubit.range`: in `grover.py` qubits 0–3 are
the rooms, 4 is `val`, 5 is the unused ancilla; in `quantum_architect_v2.py`
(and the identical `quantum_architect_muli_rule.py`) qubits 0–3 are the rooms,
4 is `val`, 5–8 are `a_count, a_adj0, a_adj1, a_xor`; in
`quantum_architect.py` qubits 0–2 are the rooms and 3 is `val`.
A room string such as `1100` lists the values of `q0 q1 q2 q3` in order. -/

/-- The six exactly-two-of-four patterns `(q0,q1,q2,q3)` shared by
`oracle_two_public_rooms` (grover.py) and step 1 of
`oracle_count_nonoverlapping_adjacency` (quantum_architect_v2.py). -/
def twoOfFourPatterns : List (List Nat) :=
  [[1, 1, 0, 0], [1, 0, 1, 0], [1, 0, 0, 1], [0, 1, 1, 0], [0, 1, 0, 1], [0, 0, 1, 1]]

/-- `X` on every room qubit whose required value in the pattern is 0. -/
def patternXs (pattern : List Nat) : List Gate :=
  pattern.enum.filterMap fun p => if p.2 = 0 then some (Gate.x [] p.1) else none

/-- One pattern block: conjugate a 4-controlled `X` on `target` by the `X`s
that map the desired pattern to all-ones. -/
def markPattern (target : Nat) (pattern : List Nat) : List Gate :=
  patternXs pattern ++ [Gate.x [0, 1, 2, 3] target] ++ patternXs pattern

/-- Gate sequence of `oracle_two_public_rooms` in `grover.py` (lines 7–48):
for each of the six patterns, `X` the zero positions, 4-controlled `X` on
`val` (qubit 4), and undo the `X`s. -/
def oracleTwoPublicRooms : List Gate :=
  (twoOfFourPatterns.map (markPattern 4)).flatten

/-- Gate sequence of `oracle_count_nonoverlapping_adjacency` in
`quantum_architect_v2.py` lines 12–101 (identical in
`quantum_architect/quantum_architect_muli_rule.py` lines 10–98):
toggle `a_count` (qubit 5) for the six 2-of-4 patterns, mark the two
adjacency windows on `a_adj0`/`a_adj1` (qubits 6, 7), build the XOR on
`a_xor` (qubit 8), flip `val` (qubit 4) if `a_count ∧ a_xor`, then
uncompute everything in reverse. -/
def oracleCountNonoverlappingAdjacency : List Gate :=
  (twoOfFourPatterns.map (markPattern 5)).flatten ++
  [Gate.x [0, 1] 6, Gate.x [2, 3] 7,
   Gate.x [6] 8, Gate.x [7] 8,
   Gate.x [5, 8] 4,
   Gate.x [7] 8, Gate.x [6] 8,
   Gate.x [2, 3] 7, Gate.x [0, 1] 6] ++
  (twoOfFourPatterns.reverse.map (markPattern 5)).flatten

/-- The diffusion block appended after the oracle by both `grover.py`
(lines 66–71) and `quantum_architect_v2.py` (lines 133–138): `H` on the four
room qubits, `X` on them, `cirq.H(q3).controlled_by(q0, q1, q2)` — note the
source applies a controlled **H** here — then undo the `X`s and `H`s. -/
def diffusionGates : List Gate :=
  [Gate.h [] 0, Gate.h [] 1, Gate.h [] 2, Gate.h [] 3,
   Gate.x [] 0, Gate.x [] 1, Gate.x [] 2, Gate.x [] 3,
   Gate.h [0, 1, 2] 3,
   Gate.x [] 0, Gate.x [] 1, Gate.x [] 2, Gate.x [] 3,
   Gate.h [] 0, Gate.h [] 1, Gate.h [] 2, Gate.h [] 3]

/-- `H` on the four room qubits (the initial superposition step). -/
def initHGates : List Gate :=
  [Gate.h [] 0, Gate.h [] 1, Gate.h [] 2, Gate.h [] 3]

/-- Gate sequence of `build_grover_circuit(num_iterations)` in `grover.py`
(lines 50–75), up to the final measurement of qubits 0–3. -/
def buildGroverPy (numIterations : Nat) : List Gate :=
  initHGates ++ (List.replicate numIterations (oracleTwoPublicRooms ++ diffusionGates)).flatten

/-- The qubits measured at the end of `grover.py`'s circuit. -/
def groverPyMeasured : List Nat := [0, 1, 2, 3]

/-- Gate sequence of `build_grover_circuit(num_iterations)` in
`quantum_architect_v2.py` (lines 107–143), up to the final measurement. -/
def buildGroverV2 (numIterations : Nat) : List Gate :=
  initHGates ++
    (List.replicate numIterations (oracleCountNonoverlappingAdjacency ++ diffusionGates)).flatten

/-- Gate sequence of `oracle_for_2_adj_public` in `quantum_architect.py`
(lines 3–35): mark pattern 110 and pattern 011 on `val` (qubit 3) with
Toffolis, phase-mark with `cirq.CZ(val, q0)`, then uncompute. -/
def oracleFor2AdjPublic : List Gate :=
  [Gate.x [] 2, Gate.x [0, 1] 3, Gate.x [] 2,
   Gate.x [] 0, Gate.x [1, 2] 3, Gate.x [] 0,
   Gate.z [3] 0,
   Gate.x [] 0, Gate.x [1, 2] 3, Gate.x [] 0,
   Gate.x [] 2, Gate.x [0, 1] 3, Gate.x [] 2]

/-- `exactlyTwoOfFour i` holds when exactly two of the four room qubits
(bits 0–3 of `i`) are 1 — the six valid layouts of `grover.py`. -/
def exactlyTwoOfFour (i : Nat) : Bool :=
  (List.range 4).countP (fun j => i.testBit j) == 2

/-- The two valid layouts of `quantum_architect_v2.py`: room string `1100`
(`q0 = q1 = 1`, index 3) and room string `0011` (`q2 = q3 = 1`, index 12). -/
def validNonoverlap (i : Nat) : Bool := i % 16 == 3 || i % 16 == 12

/-- Total amplitude sitting on basis index `i` (numerator over `√2 ^ shift`). -/
def ampPair (st : QState) (i : Nat) : ZRt2 :=
  st.entries.foldl (fun acc p => if p.1 = i then acc.add p.2 else acc) ZRt2.zero

/-- The real amplitude of basis index `i` in the state. -/
noncomputable def ampReal (st : QState) (i : Nat) : ℝ :=
  (ampPair st i).toReal / Real.sqrt 2 ^ st.shift

/-- Modelled from the spec: the standard reflection-about-mean (Grover
diffusion) operator on the 16-dimensional data register, acting on a real
amplitude vector: every amplitude is replaced by twice the mean minus
itself. -/
noncomputable def reflectAboutMean (v : Nat → ℝ) : Nat → ℝ :=
  fun i => 2 * ((Finset.range 16).sum v) / 16 - v i

/-- The amplitude vector of the data-register basis state `|0000⟩`. -/
def basisFun0 : Nat → ℝ := fun i => if i = 0 then 1 else 0

/-! ### Model of `part_2/entangled_turtles/drawing_utils.py` -/

/-- Outcome of calling a Python method: a normal return together with the
lines printed to the console, or an uncaught exception. -/
inductive PyOutcome where
  | ok (printed : List String)
  | raised (exn : String)
deriving DecidableEq, Repr

/-- `TurtleDrawer.save_drawing_as_png` (drawing_utils.py lines 108–138).
The body is one `try` block whose first statement is `from PIL import
Image, ImageGrab`; when PIL is missing that import raises `ImportError`,
the `except ImportError` arm prints two notice lines and the method returns
normally.  When PIL is available the screen capture is modelled as
succeeding and printing the save message. -/
def saveDrawingAsPng (pilAvailable : Bool) (filename : String) : PyOutcome :=
  if pilAvailable then
    PyOutcome.ok ["Drawing saved as " ++ filename]
  else
    PyOutcome.ok ["PIL (Python Imaging Library) is required for PNG export.",
      "Install it with: pip install Pillow"]

/-- `TurtleDrawer.capture_frame` (drawing_utils.py lines 147–175).
Returns immediately when `is_recording` is false; otherwise the `try` block
imports PIL and appends a frame, and the `except ImportError` arm prints the
two notice lines.  `frames` models `len(self.frames)`. -/
def captureFrame (pilAvailable isRecording : Bool) (frames : Nat) : PyOutcome × Nat :=
  if !isRecording then
    (PyOutcome.ok [], frames)
  else if pilAvailable then
    (PyOutcome.ok [], frames + 1)
  else
    (PyOutcome.ok ["PIL (Python Imaging Library) is required for GIF creation.",
      "Install it with: pip install Pillow"], frames)

/-! ### The truss fitness function duplicated in `grover_simple.py` and
`truss_population.py` -/

/-- A truss design `[num_nodes, total_length, max_stress]`; the Python
numbers are embedded as rationals. -/
structure TrussDesign where
  num_nodes : ℚ
  total_length : ℚ
  max_stress : ℚ

/-- `calculate_fitness` as written in `grover_simple.py` lines 16–35. -/
def calculateFitnessGroverSimple (design : TrussDesign) (target_stress : ℚ) : ℚ :=
  let stress_diff := |design.max_stress - target_stress|
  let length_penalty := design.total_length / 100
  let node_penalty := design.num_nodes * 10
  stress_diff + length_penalty + node_penalty

/-- `calculate_fitness` as written in `truss_population.py` lines 15–34. -/
def calculateFitnessTrussPopulation (design : TrussDesign) (target_stress : ℚ) : ℚ :=
  let stress_diff := |design.max_stress - target_stress|
  let length_penalty := design.total_length / 100
  let node_penalty := design.num_nodes * 10
  stress_diff + length_penalty + node_penalty

/-! ### Frame lemmas: a gate whose target is not qubit `t` never creates
support on basis indices with bit `t` set. -/

theorem insertAmp_forall (P : Nat → Prop) (acc : List (Nat × ZRt2)) (i : Nat) (v : ZRt2)
    (ha : ∀ p ∈ acc, P p.1) (hi : P i) : ∀ p ∈ insertAmp acc i v, P p.1 := by
  induction acc with
  | nil =>
      intro p hp
      simp only [insertAmp, List.mem_singleton] at hp
      simpa [hp] using hi
  | cons q rest ih =>
      intro p hp
      simp only [insertAmp] at hp
      by_cases h : q.1 = i
      · rw [if_pos h] at hp
        rcases List.mem_cons.mp hp with h1 | h2
        · have := ha q (List.mem_cons_self _ _)
          simpa [h1] using this
        · exact ha p (List.mem_cons_of_mem _ h2)
      · rw [if_neg h] at hp
        rcases List.mem_cons.mp hp with h1 | h2
        · have := ha q (List.mem_cons_self _ _)
          simpa [h1] using this
        · exact ih (fun r hr => ha r (List.mem_cons_of_mem _ hr)) p h2

theorem testBit_xor_pow_of_ne {i u t : Nat} (hut : u ≠ t) :
    (i ^^^ 2 ^ u).testBit t = i.testBit t := by
  rw [Nat.testBit_xor, Nat.testBit_two_pow_of_ne hut]
  simp

theorem applyGate_testBit_false {t : Nat} (g : Gate) (hgt : g.targetOf ≠ t)
    (st : QState) (hst : ∀ p ∈ st.entries, p.1.testBit t = false) :
    ∀ p ∈ (applyGate st g).entries, p.1.testBit t = false := by
  cases g with
  | x c u =>
      intro p hp
      simp only [applyGate, List.mem_map] at hp
      obtain ⟨q, hq, hpq⟩ := hp
      have hq' := hst q hq
      by_cases hc : ctrlsFire c q.1
      · simp only [hc, if_true] at hpq
        rw [← hpq]
        exact (testBit_xor_pow_of_ne hgt).trans hq'
      · simp only [hc] at hpq
        rw [← hpq]
        simpa using hq'
  | z c u =>
      intro p hp
      simp only [applyGate, List.mem_map] at hp
      obtain ⟨q, hq, hpq⟩ := hp
      rw [← hpq]
      exact hst q hq
  | h c u =>
      have hut : u ≠ t := hgt
      have key : ∀ (l acc : List (Nat × ZRt2)),
          (∀ p ∈ acc, p.1.testBit t = false) → (∀ p ∈ l, p.1.testBit t = false) →
          ∀ p ∈ l.foldl
            (fun acc p =>
              if ctrlsFire c p.1 then
                let i0 := if p.1.testBit u then p.1 ^^^ 2 ^ u else p.1
                insertAmp (insertAmp acc i0 p.2) (i0 ^^^ 2 ^ u)
                  (if p.1.testBit u then p.2.neg else p.2)
              else insertAmp acc p.1 p.2.mulSqrt2)
            acc, p.1.testBit t = false := by
        intro l
        induction l with
        | nil =>
            intro acc hacc _ p hp
            exact hacc p hp
        | cons q rest ih =>
            intro acc hacc hl
            simp only [List.foldl_cons]
            have hq : q.1.testBit t = false := hl q (List.mem_cons_self _ _)
            have hq0 : (if q.1.testBit u then q.1 ^^^ 2 ^ u else q.1).testBit t = false := by
              by_cases hb : q.1.testBit u
              · simpa [hb, testBit_xor_pow_of_ne hut] using hq
              · simpa [hb] using hq
            have hq1 :
                ((if q.1.testBit u then q.1 ^^^ 2 ^ u else q.1) ^^^ 2 ^ u).testBit t = false :=
              (testBit_xor_pow_of_ne hut).trans hq0
            refine ih _ ?_ (fun r hr => hl r (List.mem_cons_of_mem _ hr))
            by_cases hc : ctrlsFire c q.1
            · simp only [hc, if_true]
              exact insertAmp_forall (fun i => i.testBit t = false) _ _ _
                (insertAmp_forall (fun i => i.testBit t = false) _ _ _ hacc hq0) hq1
            · simp only [hc]
              exact insertAmp_forall (fun i => i.testBit t = false) _ _ _ hacc hq
      intro p hp
      exact key st.entries [] (by intro p hp; cases hp) hst p hp

theorem applyGates_testBit_false {t : Nat} (gs : List Gate)
    (hg : ∀ g ∈ gs, g.targetOf ≠ t) (st : QState)
    (hst : ∀ p ∈ st.entries, p.1.testBit t = false) :
    ∀ p ∈ (applyGates gs st).entries, p.1.testBit t = false := by
  induction gs generalizing st with
  | nil => exact hst
  | cons g rest ih =>
      have h1 := applyGate_testBit_false g (hg g (List.mem_cons_self _ _)) st hst
      exact ih (fun g' hg' => hg g' (List.mem_cons_of_mem _ hg')) _ h1

/-- Every gate of the fixed per-iteration block of `grover.py` (oracle then
diffusion) avoids qubit 5 entirely. -/
theorem groverPyBlock_avoids_five :
    ∀ g ∈ oracleTwoPublicRooms ++ diffusionGates,
      g.targetOf ≠ 5 ∧ 5 ∉ g.controlsOf := by decide

theorem initHGates_avoids_five :
    ∀ g ∈ initHGates, g.targetOf ≠ 5 ∧ 5 ∉ g.controlsOf := by decide

theorem buildGroverPy_avoids_five (n : Nat) :
    ∀ g ∈ buildGroverPy n, g.targetOf ≠ 5 ∧ 5 ∉ g.controlsOf := by
  intro g hg
  rcases List.mem_append.mp hg with h | h
  · exact initHGates_avoids_five g h
  · obtain ⟨l, hl, hgl⟩ := List.mem_flatten.mp h
    have := List.eq_of_mem_replicate hl
    exact groverPyBlock_avoids_five g (this ▸ hgl)

/-! ### The claims -/

/-- C1: for every one of the 16 computational-basis inputs to the 4 data
qubits (index `x`, bit `j` = value of room qubit `j`), with `val` and the four
ancillas initialized to zero, the gate sequence of
`oracle_count_nonoverlapping_adjacency` alone maps the basis state to the
basis state with the same data bits, all ancillas (bits 5–8) back at zero, and
`val` (bit 4) flipped exactly for the room strings `1100` (index 3) and `0011`
(index 12); the amplitude is unchanged. -/
theorem claim_C1_oracle_marks_and_uncomputes :
    ∀ x : Fin 16,
      applyGates oracleCountNonoverlappingAdjacency (basisState x.val) =
        basisState (x.val + 16 * (if x.val = 3 ∨ x.val = 12 then 1 else 0)) := by
  decide

/-- C3 (actual behavior of the code): for every 3-bit computational-basis
input `x` (bit `j` = value of room qubit `j`, `val` = qubit 3 at zero), the
gate sequence of `oracle_for_2_adj_public` acts as the identity on the bits
and applies a `-1` phase exactly when `x = 3`, i.e. the room string `110` —
and NOT on index 6, the room string `011`, contradicting the claim that both
`110` and `011` are phase-marked. -/
theorem claim_C3_only_110_marked :
    ∀ x : Fin 8,
      applyGates oracleFor2AdjPublic (basisState x.val) =
        ⟨[(x.val, if x.val = 3 then ⟨-1, 0⟩ else ⟨1, 0⟩)], 0⟩ := by
  decide

/-- C4: for every 4-bit computational-basis input `x` with `val` (qubit 4)
initialized to zero, the gate sequence of `oracle_two_public_rooms` flips
`val` if and only if exactly two of the four data bits are 1, and leaves the
four data qubits (and the amplitude) unchanged. -/
theorem claim_C4_two_public_oracle :
    ∀ x : Fin 16,
      applyGates oracleTwoPublicRooms (basisState x.val) =
        basisState (x.val + 16 * (if exactlyTwoOfFour x.val then 1 else 0)) := by
  decide

/-- C8: when PIL is unavailable, `TurtleDrawer.save_drawing_as_png` returns
normally with the two console notice lines instead of raising, and
`capture_frame` likewise returns normally (printing the notice when
recording, and nothing when not recording) leaving the frame list
unchanged. -/
theorem claim_C8_pil_missing_degrades (filename : String) (isRecording : Bool) (frames : Nat) :
    saveDrawingAsPng false filename =
      PyOutcome.ok ["PIL (Python Imaging Library) is required for PNG export.",
        "Install it with: pip install Pillow"] ∧
    captureFrame false isRecording frames =
      (PyOutcome.ok
        (if isRecording then
          ["PIL (Python Imaging Library) is required for GIF creation.",
            "Install it with: pip install Pillow"]
         else []), frames) := by
  cases isRecording <;> exact ⟨rfl, rfl⟩

/-- C9: the two copies of `calculate_fitness` in `grover_simple.py` and
`truss_population.py` agree on every design and target stress, and both
compute `|max_stress - target_stress| + total_length/100 + 10*num_nodes`. -/
theorem claim_C9_fitness_duplicates_agree (design : TrussDesign) (target_stress : ℚ) :
    calculateFitnessGroverSimple design target_stress =
      calculateFitnessTrussPopulation design target_stress ∧
    calculateFitnessGroverSimple design target_stress =
      |design.max_stress - target_stress| + design.total_length / 100 +
        10 * design.num_nodes := by
  refine ⟨rfl, ?_⟩
  unfold calculateFitnessGroverSimple
  ring

/-- C10: in `grover.py`, qubit 5 (`_unused_count`) is never the target or a
control of any gate of the built circuit for any iteration count, is not
measured, and after any prefix of the circuit the state has no support on
basis indices with bit 5 set, i.e. the qubit stays in `|0⟩` throughout. -/
theorem claim_C10_unused_ancilla_frame (n k : Nat) :
    (∀ g ∈ buildGroverPy n, g.targetOf ≠ 5 ∧ 5 ∉ g.controlsOf) ∧
    5 ∉ groverPyMeasured ∧
    ∀ p ∈ (applyGates ((buildGroverPy n).take k) (basisState 0)).entries,
      p.1.testBit 5 = false := by
  refine ⟨buildGroverPy_avoids_five n, by decide, ?_⟩
  apply applyGates_testBit_false
  · intro g hg
    exact (buildGroverPy_avoids_five n g (List.take_subset _ _ hg)).1
  · intro p hp
    simp only [basisState, List.mem_singleton] at hp
    subst hp
    rfl

/-- C2 (refuted): the diffusion block the scripts append — which applies
`cirq.H(q3).controlled_by(q0, q1, q2)` where their comments say "4-controlled
Z" — is NOT the standard reflection-about-mean operator on the data register.
On the basis input `|0000⟩` its amplitude on index 8 (room string `0001`)
differs from the reflection's `1/8`, and the cross-product inequality on
indices 0 and 8 shows the two outputs are not even proportional, ruling out
equality up to a global phase. -/
theorem claim_C2_diffusion_not_reflection :
    ampReal (applyGates diffusionGates (basisState 0)) 8 ≠ reflectAboutMean basisFun0 8 ∧
    ampReal (applyGates diffusionGates (basisState 0)) 0 * reflectAboutMean basisFun0 8 ≠
      ampReal (applyGates diffusionGates (basisState 0)) 8 * reflectAboutMean basisFun0 0 := by
  have hA0 : ampPair (applyGates diffusionGates (basisState 0)) 0 = ⟨2, 14⟩ := by decide
  have hA8 : ampPair (applyGates diffusionGates (basisState 0)) 8 = ⟨-2, 0⟩ := by decide
  have hsh : (applyGates diffusionGates (basisState 0)).shift = 9 := by decide
  have hsum : (Finset.range 16).sum basisFun0 = 1 := by
    simp [basisFun0, Finset.sum_ite_eq']
  have hR8 : reflectAboutMean basisFun0 8 = 1 / 8 := by
    unfold reflectAboutMean
    rw [hsum]
    norm_num [basisFun0]
  have hR0 : reflectAboutMean basisFun0 0 = -(7 / 8) := by
    unfold reflectAboutMean
    rw [hsum]
    norm_num [basisFun0]
  have hs0 : (0 : ℝ) < Real.sqrt 2 := Real.sqrt_pos.mpr (by norm_num)
  have hs1 : (1 : ℝ) < Real.sqrt 2 := by
    nlinarith [Real.sq_sqrt (by norm_num : (0 : ℝ) ≤ 2), Real.sqrt_nonneg 2]
  have hpow : (0 : ℝ) < Real.sqrt 2 ^ 9 := by positivity
  constructor
  · rw [ampReal, hA8, hsh, hR8, ZRt2.toReal]
    push_cast
    have : ((-2 : ℝ) + 0 * Real.sqrt 2) / Real.sqrt 2 ^ 9 < 0 := by
      apply div_neg_of_neg_of_pos _ hpow
      norm_num
    intro h
    rw [h] at this
    norm_num at this
  · rw [ampReal, ampReal, hA0, hA8, hsh, hR8, hR0, ZRt2.toReal, ZRt2.toReal]
    push_cast
    intro h
    rw [div_mul_eq_mul_div, div_mul_eq_mul_div, div_eq_div_iff hpow.ne' hpow.ne'] at h
    nlinarith [h, hs1, hpow]

/-- C5: in `grover.py`, after one Grover iteration the probability that the
pre-measurement state assigns to the six exactly-two-of-four room layouts is
strictly above the uniform baseline `6/16`.  Exactly, that probability is
`(4032 + 480·√2) / 2¹³ ≈ 0.575`. -/
theorem claim_C5_one_iteration_beats_baseline :
    6 / 16 < realProb (applyGates (buildGroverPy 1) (basisState 0)) exactlyTwoOfFour := by
  have h1 : probNum (applyGates (buildGroverPy 1) (basisState 0)) exactlyTwoOfFour =
      ⟨4032, 480⟩ := by decide
  have h2 : (applyGates (buildGroverPy 1) (basisState 0)).shift = 13 := by decide
  rw [realProb, h1, h2, ZRt2.toReal]
  push_cast
  rw [lt_div_iff₀ (by positivity)]
  nlinarith [Real.sqrt_nonneg 2]

/-- C6: in `quantum_architect_v2.py`, the probability of the valid set
`{1100, 0011}` in the pre-measurement state rises from 1 to 2 iterations and
falls from 2 to 3; in particular 2 iterations strictly beat 3.  Exactly, the
probabilities are `(2368 + 672√2)/2¹³ ≈ 0.405`, `(1384448 + 430080√2)/2²² ≈
0.475` and `(378535936 + 55050240√2)/2³¹ ≈ 0.213`. -/
theorem claim_C6_rise_then_fall :
    realProb (applyGates (buildGroverV2 1) (basisState 0)) validNonoverlap <
      realProb (applyGates (buildGroverV2 2) (basisState 0)) validNonoverlap ∧
    realProb (applyGates (buildGroverV2 3) (basisState 0)) validNonoverlap <
      realProb (applyGates (buildGroverV2 2) (basisState 0)) validNonoverlap := by
  have p1n : probNum (applyGates (buildGroverV2 1) (basisState 0)) validNonoverlap =
      ⟨2368, 672⟩ := by decide
  have p1s : (applyGates (buildGroverV2 1) (basisState 0)).shift = 13 := by decide
  have p2n : probNum (applyGates (buildGroverV2 2) (basisState 0)) validNonoverlap =
      ⟨1384448, 430080⟩ := by decide
  have p2s : (applyGates (buildGroverV2 2) (basisState 0)).shift = 22 := by decide
  have p3n : probNum (applyGates (buildGroverV2 3) (basisState 0)) validNonoverlap =
      ⟨378535936, 55050240⟩ := by decide
  have p3s : (applyGates (buildGroverV2 3) (basisState 0)).shift = 31 := by decide
  constructor
  · rw [realProb, realProb, p1n, p1s, p2n, p2s, ZRt2.toReal, ZRt2.toReal]
    push_cast
    rw [div_lt_div_iff₀ (by positivity) (by positivity)]
    nlinarith [Real.sqrt_nonneg 2]
  · rw [realProb, realProb, p3n, p3s, p2n, p2s, ZRt2.toReal, ZRt2.toReal]
    push_cast
    rw [div_lt_div_iff₀ (by positivity) (by positivity)]
    nlinarith [Real.sqrt_nonneg 2]

end GDQ
